import Mathlib

/-!
Verification development for the AMS_Orders repository (Orders-Inventory-Data).

The file shallowly embeds the parts of the code the claims concern:

* `excel_report.py` — the six pattern handlers (`copy_data_body_range`,
  `search_row_copy_columns`, `previous_full_day_lookup`,
  `single_cell_extraction`, `search_row_with_blank_check`,
  `sheet_range_copy`), the dispatch table, the operation plan
  `build_operations`, and the operations loop of `main`.
* `App.py` — the outcome combination of the `both` and `all` worker branches.
* `excel_manager.py` — `ExcelManager.convert_xls_to_xlsx` lock discipline.
* `helpers.py` — `get_company_holidays` and `subtract_one_business_day`,
  over a civil-calendar embedding of `datetime.date`.

Cell values are modelled by an inductive `Val` (Python `None`, strings and
numbers; numbers are embedded as integers).  Handlers are modelled as pure
functions from their inputs (the batch-read grids and destination-table
metadata) to a list of effects `Eff` (row appends, cell writes, log lines),
mirroring the order of operations of the source.
-/

namespace AMS

/-- Model of a spreadsheet cell value: Python `None`, a string, or a number
(numbers embedded as integers). -/
inductive Val where
  | none
  | str (s : String)
  | num (n : Int)
deriving DecidableEq, Repr, Inhabited

/-- Python truthiness of a cell value: `None`, `""` and `0` are falsy. -/
def Val.truthy : Val → Bool
  | .none => false
  | .str s => s != ""
  | .num n => n != 0

/-- Python `str(v)` of a cell value. -/
def Val.pyStr : Val → String
  | .none => "None"
  | .str s => s
  | .num n => toString n

/-- Python `v in (None, "", 0)` — the blank-or-zero test of Pattern E. -/
def Val.isBlankZero : Val → Bool
  | .none => true
  | .str s => s == ""
  | .num n => n == 0

/-- Character-list test: `kw` occurs at the start of `l`. -/
def prefOf : List Char → List Char → Bool
  | [], _ => true
  | _ :: _, [] => false
  | a :: as, b :: bs => a == b && prefOf as bs

/-- Character-list test: `kw` occurs contiguously somewhere in `l`. -/
def subOf (kw : List Char) : List Char → Bool
  | [] => prefOf kw []
  | b :: bs => prefOf kw (b :: bs) || subOf kw bs

/-- Python `kw in s` (substring containment). -/
def strHas (s kw : String) : Bool := subOf kw.toList s.toList

/-- The keyword test used by Patterns B/C/D/E on a first-column cell:
Python `cell_val and keyword in str(cell_val)`. -/
def kwMatch (kw : String) (v : Val) : Bool := v.truthy && strHas v.pyStr kw

/-- One operation record of the operation plan (a Python dict in the source;
optional keys are modelled as `Option` fields). -/
structure Op where
  name : String
  pattern : String
  pivot : Option String := Option.none
  dest_sheet : Option String := Option.none
  dest_table : Option String := Option.none
  keyword : Option String := Option.none
  dest_col_header : Option String := Option.none
  extract_col : Option Nat := Option.none
  row_start : Option Nat := Option.none
  date_col : Option (Nat × String) := Option.none
  col_offset : Option (Nat → Nat) := Option.none
  source_sheet : Option String := Option.none
  start_row : Option Nat := Option.none
  start_col : Option Nat := Option.none
  end_row : Option Nat := Option.none
  end_col : Option Nat := Option.none
deriving Inhabited

/-- Effects a pattern handler performs on the workbook, in order.  Cell
writes are recorded in destination-table data-body coordinates (1-based
row within the table region, 1-based column): a write through
`new_row.Range.Cells(i, j)` of the appended row `next_row` lands at body
row `next_row + i - 1`. -/
inductive Eff where
  | addRow (table : String)
  | writeCell (table : String) (r c : Nat) (v : Val)
  | logInfo (msg : String)
  | logWarning (msg : String)
  | logError (msg : String)
deriving DecidableEq, Repr

/-- Date-stamp effects of `op.get("date_col")`: written into cell
`(1, col)` of the newly appended row. -/
def dateEffs (dest_table : String) (next_row : Nat) :
    Option (Nat × String) → List Eff
  | some (col, date_val) => [Eff.writeCell dest_table next_row col (Val.str date_val)]
  | Option.none => []

/-- Value-write segment of Pattern A: for `i` in `1..R` (rows of the
data body) and `j` in `1..num_cols-1` (skipping the last column), write
`values[i-1][j-1]` at `new_row.Range.Cells(i, col_offset(j))`. -/
def patternA_writes (values : List (List Val)) (num_cols : Nat)
    (dest_table : String) (next_row : Nat) (col_offset : Nat → Nat) : List Eff :=
  (List.range values.length).flatMap (fun i0 =>
    (List.range (num_cols - 1)).map (fun j0 =>
      Eff.writeCell dest_table (next_row + i0) (col_offset (j0 + 1))
        ((values.getD i0 []).getD j0 Val.none)))

/-- Pattern A (`_copy_data_body_range`): append one row, optionally date-stamp
it, then copy every data-body value except the last (grand-total) column. -/
def copy_data_body_range (values : List (List Val)) (num_cols : Nat)
    (dest_table : String) (destRowCount : Nat)
    (date_col : Option (Nat × String)) (col_offset : Nat → Nat)
    (name : String) : List Eff :=
  let next_row := destRowCount + 1
  [Eff.addRow dest_table]
    ++ dateEffs dest_table next_row date_col
    ++ patternA_writes values num_cols dest_table next_row col_offset
    ++ [Eff.logInfo ("Pattern A complete: " ++ name)]

/-- Keyword-row search common to Patterns B/D/E: first row at 0-based index
`row_start - 1` or later whose first cell matches the keyword. -/
def findKwRow (values : List (List Val)) (row_start : Nat) (kw : String) :
    Option (List Val) :=
  (values.drop (row_start - 1)).find? (fun row => kwMatch kw (row.getD 0 Val.none))

/-- Pattern B (`_search_row_copy_columns`): append one row, optionally
date-stamp it, search for the keyword row, then copy columns `2..N-1`
(skipping the trailing grand-total column). -/
def search_row_copy_columns (values : List (List Val)) (num_cols : Nat)
    (dest_table : String) (destRowCount : Nat)
    (date_col : Option (Nat × String)) (row_start : Nat)
    (keyword : String) (col_offset : Nat → Nat) (name : String) : List Eff :=
  let next_row := destRowCount + 1
  let pre := [Eff.addRow dest_table] ++ dateEffs dest_table next_row date_col
  match findKwRow values row_start keyword with
  | Option.none =>
      pre ++ [Eff.logWarning ("Keyword '" ++ keyword ++ "' not found for " ++ name)]
  | some target_row =>
      pre
        ++ (List.range (num_cols - 2)).map (fun j0 =>
            Eff.writeCell dest_table next_row (col_offset (j0 + 2))
              (target_row.getD (j0 + 1) Val.none))
        ++ [Eff.logInfo ("Pattern B complete: " ++ name)]

/-- Destination-column lookup of Pattern C: 1-based index of the first
header cell equal (Python `==`, exact) to the label. -/
def findDestCol (header : List Val) (label : String) : Option Nat :=
  match header.findIdx? (fun v => v == Val.str label) with
  | some i => some (i + 1)
  | Option.none => Option.none

/-- Body scan of Pattern C: 1-based body row of the first row whose cell in
`dest_col` is falsy. -/
def firstEmptyBodyRow (body : List (List Val)) (dest_col : Nat) : Option Nat :=
  match body.findIdx? (fun row => !(row.getD (dest_col - 1) Val.none).truthy) with
  | some i => some (i + 1)
  | Option.none => Option.none

/-- Pattern C (`_previous_full_day_lookup`): locate the destination column by
header label, find the first empty cell in that column (else one past the
last row), find the keyword row in the pivot range, and write that row's
last-column value there. -/
def previous_full_day_lookup (values : List (List Val)) (destHeader : List Val)
    (destBody : List (List Val)) (dest_table : String)
    (dest_col_header : String) (keyword : String) (name : String) : List Eff :=
  match findDestCol destHeader dest_col_header with
  | Option.none =>
      [Eff.logWarning ("Column '" ++ dest_col_header ++ "' not found for " ++ name)]
  | some dest_col =>
      let target_rel := (firstEmptyBodyRow destBody dest_col).getD (destBody.length + 1)
      let num_cols := (values.headD []).length
      match values.find? (fun row => kwMatch keyword (row.getD 0 Val.none)) with
      | Option.none =>
          [Eff.logWarning ("Keyword '" ++ keyword ++ "' not found for " ++ name)]
      | some target_data =>
          let last_val := if num_cols == 0 then Val.none
                          else target_data.getD (num_cols - 1) Val.none
          if last_val == Val.none then
            [Eff.logWarning ("No data in last column for " ++ name)]
          else
            [Eff.writeCell dest_table target_rel dest_col last_val,
             Eff.logInfo ("Pattern C complete: " ++ name)]

/-- Pattern D (`_single_cell_extraction`): search for the keyword row first;
only on success append one row and write the extracted value into its
first cell. -/
def single_cell_extraction (values : List (List Val)) (dest_table : String)
    (destRowCount : Nat) (row_start : Nat) (keyword : String)
    (extract_col : Nat) (name : String) : List Eff :=
  match findKwRow values row_start keyword with
  | Option.none =>
      [Eff.logWarning ("Keyword '" ++ keyword ++ "' not found for " ++ name)]
  | some target_row =>
      let value := target_row.getD (extract_col - 1) Val.none
      let next_row := destRowCount + 1
      [Eff.addRow dest_table,
       Eff.writeCell dest_table next_row 1 value,
       Eff.logInfo ("Pattern D complete: " ++ name)]

/-- Pattern E (`_search_row_with_blank_check`): like B but columns `2..N`
including the trailing column, and if every value of the matched row in
columns `2..N` is blank or zero, zero is written instead of the raw values. -/
def search_row_with_blank_check (values : List (List Val))
    (dest_table : String) (destRowCount : Nat)
    (date_col : Option (Nat × String)) (row_start : Nat)
    (keyword : String) (col_offset : Nat → Nat) (name : String) : List Eff :=
  let next_row := destRowCount + 1
  let pre := [Eff.addRow dest_table] ++ dateEffs dest_table next_row date_col
  let num_cols := (values.headD []).length
  match findKwRow values row_start keyword with
  | Option.none =>
      pre ++ [Eff.logWarning ("Keyword '" ++ keyword ++ "' not found for " ++ name)]
  | some target_row =>
      let is_blank := (target_row.drop 1).all Val.isBlankZero
      pre
        ++ (List.range (num_cols - 1)).map (fun j0 =>
            Eff.writeCell dest_table next_row (col_offset (j0 + 2))
              (if is_blank then Val.num 0 else target_row.getD (j0 + 1) Val.none))
        ++ [Eff.logInfo ("Pattern E complete: " ++ name)]

/-- Pattern F (`_sheet_range_copy`): append one row, optionally date-stamp
it, then copy the first row of the batch-read rectangular range cell by
cell at the offset columns. -/
def sheet_range_copy (sheetVals : List (List Val)) (dest_table : String)
    (destRowCount : Nat) (date_col : Option (Nat × String))
    (col_offset : Nat → Nat) (name : String) : List Eff :=
  let next_row := destRowCount + 1
  let pre := [Eff.addRow dest_table] ++ dateEffs dest_table next_row date_col
  let flat := sheetVals.headD []
  pre
    ++ (List.range flat.length).map (fun k =>
        Eff.writeCell dest_table next_row (col_offset (k + 1)) (flat.getD k Val.none))
    ++ [Eff.logInfo ("Pattern F complete: " ++ name)]

/-- Applying an effect list to a destination table: returns the table's row
count and the log of cell writes `(row, col, value)` that target it. -/
def applyEffs (table : String) : List Eff → Nat × List (Nat × Nat × Val) →
    Nat × List (Nat × Nat × Val)
  | [], st => st
  | Eff.addRow t :: rest, (rc, cs) =>
      applyEffs table rest (if t == table then rc + 1 else rc, cs)
  | Eff.writeCell t r c v :: rest, (rc, cs) =>
      applyEffs table rest (rc, if t == table then cs ++ [(r, c, v)] else cs)
  | _ :: rest, st => applyEffs table rest st

/-- Workbook context a handler reads: batch-read source grids and the
destination table's metadata, mirroring the COM reads of the source. -/
structure Ctx where
  dataBody : List (List Val)
  dataBodyCols : Nat
  fullRange : List (List Val)
  fullRangeCols : Nat
  destHeader : List Val
  destBody : List (List Val)
  destRowCount : Nat
  sheetVals : List (List Val)

/-- Dictionary access `op["field"]`: a missing key raises `KeyError`,
modelled as the error case carrying the field name. -/
def req {α : Type} (o : Option α) (field : String) : Except String α :=
  match o with
  | some v => Except.ok v
  | Option.none => Except.error field

/-- Dispatched form of Pattern A, reading its fields from the record. -/
def runA (op : Op) (ctx : Ctx) : Except String (List Eff) := do
  let _pivot ← req op.pivot "pivot"
  let _ds ← req op.dest_sheet "dest_sheet"
  let dt ← req op.dest_table "dest_table"
  let off ← req op.col_offset "col_offset"
  Except.ok (copy_data_body_range ctx.dataBody ctx.dataBodyCols dt
    ctx.destRowCount op.date_col off op.name)

/-- Dispatched form of Pattern B. -/
def runB (op : Op) (ctx : Ctx) : Except String (List Eff) := do
  let _pivot ← req op.pivot "pivot"
  let _ds ← req op.dest_sheet "dest_sheet"
  let dt ← req op.dest_table "dest_table"
  let kw ← req op.keyword "keyword"
  let off ← req op.col_offset "col_offset"
  Except.ok (search_row_copy_columns ctx.fullRange ctx.fullRangeCols dt
    ctx.destRowCount op.date_col (op.row_start.getD 1) kw off op.name)

/-- Dispatched form of Pattern C. -/
def runC (op : Op) (ctx : Ctx) : Except String (List Eff) := do
  let _pivot ← req op.pivot "pivot"
  let _ds ← req op.dest_sheet "dest_sheet"
  let dt ← req op.dest_table "dest_table"
  let hdr ← req op.dest_col_header "dest_col_header"
  let kw ← req op.keyword "keyword"
  Except.ok (previous_full_day_lookup ctx.fullRange ctx.destHeader
    ctx.destBody dt hdr kw op.name)

/-- Dispatched form of Pattern D. -/
def runD (op : Op) (ctx : Ctx) : Except String (List Eff) := do
  let _pivot ← req op.pivot "pivot"
  let _ds ← req op.dest_sheet "dest_sheet"
  let dt ← req op.dest_table "dest_table"
  let kw ← req op.keyword "keyword"
  let xc ← req op.extract_col "extract_col"
  Except.ok (single_cell_extraction ctx.fullRange dt ctx.destRowCount
    (op.row_start.getD 2) kw xc op.name)

/-- Dispatched form of Pattern E. -/
def runE (op : Op) (ctx : Ctx) : Except String (List Eff) := do
  let _pivot ← req op.pivot "pivot"
  let _ds ← req op.dest_sheet "dest_sheet"
  let dt ← req op.dest_table "dest_table"
  let kw ← req op.keyword "keyword"
  let off ← req op.col_offset "col_offset"
  Except.ok (search_row_with_blank_check ctx.fullRange dt ctx.destRowCount
    op.date_col (op.row_start.getD 2) kw off op.name)

/-- Dispatched form of Pattern F. -/
def runF (op : Op) (ctx : Ctx) : Except String (List Eff) := do
  let _ss ← req op.source_sheet "source_sheet"
  let _sr ← req op.start_row "start_row"
  let _sc ← req op.start_col "start_col"
  let _er ← req op.end_row "end_row"
  let _ec ← req op.end_col "end_col"
  let _ds ← req op.dest_sheet "dest_sheet"
  let dt ← req op.dest_table "dest_table"
  let off ← req op.col_offset "col_offset"
  Except.ok (sheet_range_copy ctx.sheetVals dt ctx.destRowCount
    op.date_col off op.name)

/-- The `_DISPATCH` table mapping pattern tags to handlers. -/
def DISPATCH (pattern : String) : Option (Op → Ctx → Except String (List Eff)) :=
  if pattern == "A" then some runA
  else if pattern == "B" then some runB
  else if pattern == "C" then some runC
  else if pattern == "D" then some runD
  else if pattern == "E" then some runE
  else if pattern == "F" then some runF
  else Option.none

/-- The fixed operation plan of `_build_operations(today_str, prev_bday_str)`:
19 records in source order. -/
def build_operations (today_str prev_bday_str : String) : List Op :=
  [ { name := "Incomplete Inventory > 0", pattern := "A",
      pivot := some "PivotTable5", dest_sheet := some "MO YR SUMMARY",
      dest_table := some "YR_INCOMP", date_col := some (2, today_str),
      col_offset := some (fun j => j + 2) },
    { name := "No Inventory = 0", pattern := "A",
      pivot := some "PivotTable7", dest_sheet := some "MO YR SUMMARY",
      dest_table := some "YR_NOINV", col_offset := some (fun j => j) },
    { name := "Total MO Created", pattern := "A",
      pivot := some "PivotTable4", dest_sheet := some "MO YR SUMMARY",
      dest_table := some "MB51_submit18", col_offset := some (fun j => j) },
    { name := "Daily Reservation Submitted", pattern := "B",
      pivot := some "PivotTable11", keyword := some "CURRENT UNIL 6 PM",
      dest_sheet := some "MO YR SUMMARY", dest_table := some "MB51_submit",
      col_offset := some (fun j => j - 1) },
    { name := "Prev Full Day Submitted", pattern := "C",
      pivot := some "PivotTable11", keyword := some "PREVIOUS FULL DAY",
      dest_sheet := some "MO YR SUMMARY", dest_table := some "MB51_submit",
      dest_col_header := some "Full Day SUBMIT" },
    { name := "DN AO Inventory Available", pattern := "B",
      pivot := some "PivotTable3", keyword := some "Available",
      dest_sheet := some "DN AO YR SUMMARY", dest_table := some "AO_INV_AVAIL",
      date_col := some (2, today_str), col_offset := some (fun j => j + 1) },
    { name := "DN AO No Inventory", pattern := "B",
      pivot := some "PivotTable3", keyword := some "No Inventory",
      dest_sheet := some "DN AO YR SUMMARY", dest_table := some "AO_NO_INV",
      col_offset := some (fun j => j - 1) },
    { name := "DN AO Partial Inventory", pattern := "B",
      pivot := some "PivotTable3", keyword := some "Partial",
      dest_sheet := some "DN AO YR SUMMARY", dest_table := some "AO_PART_INV",
      col_offset := some (fun j => j - 1) },
    { name := "Daily DN AO Submitted", pattern := "B",
      pivot := some "PivotTable1", keyword := some "CURRENT UNIL 6 PM",
      dest_sheet := some "DN AO YR SUMMARY", dest_table := some "Table16",
      col_offset := some (fun j => j - 1) },
    { name := "Prev Full Day AO Submitted", pattern := "C",
      pivot := some "PivotTable1", keyword := some "PREVIOUS FULL DAY",
      dest_sheet := some "DN AO YR SUMMARY", dest_table := some "Table16",
      dest_col_header := some "FULL DAY SUBMIT" },
    { name := "SO YR COMP - Assembly Completed", pattern := "B",
      pivot := some "PivotTable6", keyword := some "ASSEMBLY COMPLETED",
      dest_sheet := some "SO YR COMP", dest_table := some "Table9",
      date_col := some (2, prev_bday_str), col_offset := some (fun j => j + 1),
      row_start := some 2 },
    { name := "SO YR COMP - eStore", pattern := "D",
      pivot := some "PivotTable6", keyword := some "eStore",
      dest_sheet := some "SO YR COMP", dest_table := some "Table11",
      extract_col := some 6, row_start := some 2 },
    { name := "SO YR COMP - HUB ORDER", pattern := "B",
      pivot := some "PivotTable6", keyword := some "HUB ORDER",
      dest_sheet := some "SO YR COMP", dest_table := some "Table15",
      col_offset := some (fun j => j - 1), row_start := some 2 },
    { name := "SO YR COMP - REGULAR", pattern := "B",
      pivot := some "PivotTable6", keyword := some "REGULAR",
      dest_sheet := some "SO YR COMP", dest_table := some "Table19",
      col_offset := some (fun j => j - 1), row_start := some 2 },
    { name := "SO YR INCMP - Assembly Completed", pattern := "E",
      pivot := some "PivotTable8", keyword := some "ASSEMBLY COMPLETED",
      dest_sheet := some "SO YR INCMP", dest_table := some "Table21",
      date_col := some (2, today_str), col_offset := some (fun j => j + 1),
      row_start := some 2 },
    { name := "SO YR INCMP - eStore", pattern := "D",
      pivot := some "PivotTable8", keyword := some "eStore",
      dest_sheet := some "SO YR INCMP", dest_table := some "Table2326",
      extract_col := some 7, row_start := some 2 },
    { name := "SO YR INCMP - HUB ORDER", pattern := "E",
      pivot := some "PivotTable8", keyword := some "HUB ORDER",
      dest_sheet := some "SO YR INCMP", dest_table := some "Table27",
      col_offset := some (fun j => j - 1), row_start := some 2 },
    { name := "SO YR INCMP - REGULAR", pattern := "E",
      pivot := some "PivotTable8", keyword := some "REGULAR",
      dest_sheet := some "SO YR INCMP", dest_table := some "Table28",
      col_offset := some (fun j => j - 1), row_start := some 2 },
    { name := "MO % Sheet Copy", pattern := "F",
      source_sheet := some "MO %", start_row := some 4, start_col := some 3,
      end_row := some 4, end_col := some 106,
      dest_sheet := some "MO %", dest_table := some "Table18",
      date_col := some (2, today_str),
      col_offset := some (fun i => i + 11) } ]

/-- Output of the operations loop of `main`: the emitted progress events
`(percent, stage)` and the error-log lines, in order. -/
structure LoopOut where
  events : List (Nat × String)
  errors : List String
deriving DecidableEq, Repr

/-- The operations loop of `main` (Step 4), starting from 1-based index
`idx`.  `exc idx op` is the exception (if any) raised by the dispatched
handler on the document; an unknown pattern logs an error and `continue`s
without emitting a progress event; a handler exception is logged and the
loop continues; after each dispatched operation one progress event is
emitted with `pct = 20 + (idx * 70) / total` (the Python source computes
`20 + int((idx / total) * 70)`; integer floor agrees with the float
computation at the plan's length 19). -/
def operationsLoop (total : Nat) (exc : Nat → Op → Option String) :
    Nat → List Op → LoopOut
  | _, [] => ⟨[], []⟩
  | idx, op :: rest =>
      let next := operationsLoop total exc (idx + 1) rest
      if (DISPATCH op.pattern).isNone then
        ⟨next.events,
         ("Unknown pattern '" ++ op.pattern ++ "' for " ++ op.name) :: next.errors⟩
      else
        let errs := match exc idx op with
          | some e => ["Operation '" ++ op.name ++ "' failed: " ++ e]
          | Option.none => []
        ⟨(20 + (idx * 70) / total, op.name) :: next.events, errs ++ next.errors⟩

/-- Step 4 of `main`: `total = len(operations) or 1`, then the loop over the
plan with 1-based indices. -/
def executeOperations (ops : List Op) (exc : Nat → Op → Option String) : LoopOut :=
  let total := if ops.length = 0 then 1 else ops.length
  operationsLoop total exc 1 ops

/-- Outcome combination of the `both` branch of `WorkerThread.run`:
`(success, message)` as passed to `finished.emit`. -/
def bothOutcome (website_success sap_success : Bool) : Bool × String :=
  if website_success && sap_success then
    (true, "Both scripts completed successfully!")
  else if website_success || sap_success then
    (false, "Partial success: " ++
      (if website_success then "Website ✓, SAP ✗" else "Website ✗, SAP ✓"))
  else
    (false, "Both scripts failed!")

/-- Result of the `all` branch of `WorkerThread.run`: whether the Excel
report phase was invoked, and the final `(success, message)`. -/
structure AllRun where
  reportInvoked : Bool
  finished : Bool × String
deriving DecidableEq, Repr

/-- The `all` branch: downloads first; if they are not both successful the
report phase is skipped and a descriptive failure is emitted; otherwise the
report runs (`reportErr` its exception, if any) and determines the outcome. -/
def allOutcome (website_ok sap_ok : Bool) (reportErr : Option String) : AllRun :=
  if !(website_ok && sap_ok) then
    { reportInvoked := false,
      finished := (false,
        "Downloads failed — " ++
        (if !website_ok && !sap_ok then "both PDBS and SAP failed."
         else if !website_ok then "PDBS failed, SAP succeeded."
         else "PDBS succeeded, SAP failed.") ++ " Excel report skipped.") }
  else
    match reportErr with
    | Option.none => { reportInvoked := true,
                       finished := (true, "All tasks completed successfully!") }
    | some e => { reportInvoked := true,
                  finished := (false,
                    "Downloads succeeded but Excel report failed: " ++ e) }

/-- Observable events of `ExcelManager.convert_xls_to_xlsx`. -/
inductive MEv where
  | acquireAttempt (timeout : Nat)
  | docOp
  | release
  | logErr (msg : String)
deriving DecidableEq, Repr

/-- `ExcelManager.convert_xls_to_xlsx`: acquire the operation lock with the
given timeout (default 60 s); on timeout log and return `False` without
touching any document; otherwise run the conversion (`body` its outcome),
returning `True` on success and `False` on exception, releasing the lock in
the `finally` block on either path. -/
def convert_xls_to_xlsx (acquireOk : Bool) (body : Except String Unit)
    (timeout : Nat := 60) : Bool × List MEv :=
  if !acquireOk then
    (false, [MEv.acquireAttempt timeout,
             MEv.logErr ("Timeout waiting for Excel lock (" ++ toString timeout ++ "s)")])
  else
    match body with
    | Except.ok _ => (true, [MEv.acquireAttempt timeout, MEv.docOp, MEv.release])
    | Except.error e =>
        (false, [MEv.acquireAttempt timeout, MEv.docOp,
                 MEv.logErr ("Error converting file: " ++ e), MEv.release])

/-- ASCII lowercasing of a character (used to state case-insensitivity). -/
def lowerChar (c : Char) : Char :=
  if 65 ≤ c.toNat ∧ c.toNat ≤ 90 then Char.ofNat (c.toNat + 32) else c

/-- Gregorian leap-year rule. -/
def isLeap (y : Nat) : Bool := (y % 4 == 0 && y % 100 != 0) || y % 400 == 0

/-- Length of month `m` of year `y` (0 for out-of-range months). -/
def daysInMonth (y m : Nat) : Nat :=
  if m = 1 then 31
  else if m = 2 then (if isLeap y then 29 else 28)
  else if m = 3 then 31
  else if m = 4 then 30
  else if m = 5 then 31
  else if m = 6 then 30
  else if m = 7 then 31
  else if m = 8 then 31
  else if m = 9 then 30
  else if m = 10 then 31
  else if m = 11 then 30
  else if m = 12 then 31
  else 0

/-- Civil calendar date, the embedding of Python `datetime` dates. -/
structure Date where
  y : Nat
  m : Nat
  d : Nat
deriving DecidableEq, Repr, Inhabited

/-- Calendar validity of a date (what `datetime` guarantees by construction). -/
def Date.Valid : Date → Prop
  | ⟨y, m, d⟩ => 1 ≤ y ∧ 1 ≤ m ∧ m ≤ 12 ∧ 1 ≤ d ∧ d ≤ daysInMonth y m

instance (x : Date) : Decidable x.Valid :=
  match x with
  | ⟨y, m, d⟩ =>
      inferInstanceAs (Decidable (1 ≤ y ∧ 1 ≤ m ∧ m ≤ 12 ∧ 1 ≤ d ∧ d ≤ daysInMonth y m))

/-- Python `date - timedelta(days=1)`. -/
def Date.pred : Date → Date
  | ⟨y, m, d⟩ =>
      if 2 ≤ d then ⟨y, m, d - 1⟩
      else if 2 ≤ m then ⟨y, m - 1, daysInMonth y (m - 1)⟩
      else ⟨y - 1, 12, 31⟩

/-- Python `date + timedelta(days=1)`. -/
def Date.succ : Date → Date
  | ⟨y, m, d⟩ =>
      if d < daysInMonth y m then ⟨y, m, d + 1⟩
      else if m < 12 then ⟨y, m + 1, 1⟩
      else ⟨y + 1, 1, 1⟩

/-- Number of days in the months of year `y` strictly before month `m`. -/
def daysBeforeMonth (y m : Nat) : Nat :=
  Finset.sum (Finset.range (m - 1)) (fun i => daysInMonth y (i + 1))

/-- Number of leap years strictly before year `y` (from year 1 on). -/
def leapsBefore (y : Nat) : Nat := (y - 1) / 4 - (y - 1) / 100 + (y - 1) / 400

/-- Number of days in the years strictly before year `y`. -/
def daysBeforeYear (y : Nat) : Nat := 365 * (y - 1) + leapsBefore y

/-- Day rank of a date: day number counted from rank 1 = January 1 of year 1. -/
def Date.rank : Date → Nat
  | ⟨y, m, d⟩ => daysBeforeYear y + daysBeforeMonth y m + d

/-- Python `date.weekday()`: Monday = 0 … Sunday = 6.  Calibrated so that
January 1 of year 1 (rank 1) is a Monday, as in the proleptic Gregorian
calendar used by `datetime`. -/
def Date.weekday (x : Date) : Nat := (x.rank + 6) % 7

/-- Python `date + timedelta(days=k)`. -/
def addDays (x : Date) (k : Nat) : Date := Date.succ^[k] x

/-- Python `date - timedelta(days=k)`. -/
def subDays (x : Date) (k : Nat) : Date := Date.pred^[k] x

/-- Inverse of `Date.rank` on valid dates. -/
def fromRank (n : Nat) : Date := Date.succ^[n - 1] ⟨1, 1, 1⟩

/-- `get_company_holidays(year)` from `helpers.py`: the fixed holidays, the
observed Independence Day when July 4 falls on a weekend, and the floating
holidays.  Python's `(3 - w) % 7` (a non-negative Python modulus with
`w ≤ 6`) is written `(3 + 7 - w) % 7`. -/
def get_company_holidays (year : Nat) : Finset Date :=
  let holidays0 : Finset Date :=
    {⟨year, 1, 1⟩, ⟨year, 6, 19⟩, ⟨year, 7, 4⟩, ⟨year, 12, 24⟩, ⟨year, 12, 25⟩}
  let july_4 : Date := ⟨year, 7, 4⟩
  let holidays1 :=
    if july_4.weekday = 5 then insert (⟨year, 7, 3⟩ : Date) holidays0
    else if july_4.weekday = 6 then insert (⟨year, 7, 5⟩ : Date) holidays0
    else holidays0
  let jan_first : Date := ⟨year, 1, 1⟩
  let first_monday_j := addDays jan_first ((7 - jan_first.weekday) % 7)
  let first_monday_j := if jan_first.weekday = 0 then jan_first else first_monday_j
  let mlk_day := addDays first_monday_j 14
  let holidays2 := insert mlk_day holidays1
  let feb_first : Date := ⟨year, 2, 1⟩
  let first_monday_f := addDays feb_first ((7 - feb_first.weekday) % 7)
  let first_monday_f := if feb_first.weekday = 0 then feb_first else first_monday_f
  let presidents_day := addDays first_monday_f 14
  let holidays3 := insert presidents_day holidays2
  let may_last : Date := ⟨year, 5, 31⟩
  let memorial_day := subDays may_last ((may_last.weekday - 0) % 7)
  let holidays4 := insert memorial_day holidays3
  let sep_first : Date := ⟨year, 9, 1⟩
  let first_monday_s := addDays sep_first ((7 - sep_first.weekday) % 7)
  let first_monday_s := if sep_first.weekday = 0 then sep_first else first_monday_s
  let labor_day := first_monday_s
  let holidays5 := insert labor_day holidays4
  let nov_first : Date := ⟨year, 11, 1⟩
  let first_thursday := addDays nov_first ((3 + 7 - nov_first.weekday) % 7)
  let first_thursday := if nov_first.weekday = 3 then nov_first else first_thursday
  let thanksgiving := addDays first_thursday 21
  let holidays6 := insert thanksgiving holidays5
  insert (addDays thanksgiving 1) holidays6

/-- The `while True` search of `subtract_one_business_day`, with explicit
fuel (the source loop is unbounded; the termination theorems show the fuel
below is never exhausted on valid inputs): a holiday steps back one day, a
Saturday one day, a Sunday two days; anything else is returned. -/
def sobdGo (H : Finset Date) : Nat → Date → Option Date
  | 0, _ => Option.none
  | fuel + 1, date =>
      if date ∈ H then sobdGo H fuel date.pred
      else if date.weekday = 5 then sobdGo H fuel date.pred
      else if date.weekday = 6 then sobdGo H fuel date.pred.pred
      else some date

/-- `subtract_one_business_day(date)` from `helpers.py`: step back one day,
build the holiday set of that day's year and the prior year, then search
backwards for a non-holiday weekday. -/
def subtract_one_business_day (x : Date) : Date :=
  let date := x.pred
  let holidays := get_company_holidays date.y ∪ get_company_holidays (date.y - 1)
  (sobdGo holidays 400 date).getD date

/-! ### General-purpose helper lemmas -/

lemma flatMap_range_map_length (n k : Nat) (g : Nat → Nat → Eff) :
    ((List.range n).flatMap (fun i => (List.range k).map (g i))).length = n * k := by
  induction n with
  | zero => simp
  | succ n ih =>
      rw [List.range_succ, List.flatMap_append, List.length_append, ih]
      simp [Nat.succ_mul]

lemma findIdx?_isSome_of_mem {α : Type} (p : α → Bool) (l : List α) (x : α)
    (hx : x ∈ l) (hp : p x = true) : (l.findIdx? p).isSome = true := by
  induction l with
  | nil => simp at hx
  | cons a t ih =>
      rw [List.findIdx?_cons]
      by_cases h : p a
      · simp [h]
      · rcases List.mem_cons.mp hx with rfl | hmem
        · simp [hp] at h
        · simp [h, Option.isSome_map]
          exact ih hmem

/-! ### C1 — Pattern A write discipline and the 3×4 end-to-end scenario -/

/-- C1: Pattern A (`_copy_data_body_range`) performs exactly `R·(C−1)` value
writes for an `R×C` data body, each taken from a source column `j` with
`1 ≤ j ≤ C−1` (so the last, grand-total source column is never used), laid
out from the appended row downwards; and the end-to-end scenario of one
Pattern-A operation on a 3×4 data body against an initially empty
destination table leaves the table with exactly 1 row whose 3 populated
cells sit at columns `col_offset 1`, `col_offset 2`, `col_offset 3` (here
`3, 4, 5`): the 4th source column is skipped. -/
theorem C1_patternA_copy :
    (∀ (values : List (List Val)) (C : Nat) (dt : String) (rc : Nat)
       (dc : Option (Nat × String)) (off : Nat → Nat) (nm : String),
       copy_data_body_range values C dt rc dc off nm =
         [Eff.addRow dt] ++ dateEffs dt (rc + 1) dc
           ++ patternA_writes values C dt (rc + 1) off
           ++ [Eff.logInfo ("Pattern A complete: " ++ nm)]
       ∧ (patternA_writes values C dt (rc + 1) off).length = values.length * (C - 1)
       ∧ (∀ e ∈ patternA_writes values C dt (rc + 1) off,
            ∃ i0 j0, i0 < values.length ∧ j0 < C - 1 ∧
              e = Eff.writeCell dt (rc + 1 + i0) (off (j0 + 1))
                    ((values.getD i0 []).getD j0 Val.none)))
    ∧ (applyEffs "T"
        (copy_data_body_range
          [[Val.num 11, Val.num 12, Val.num 13, Val.num 14],
           [Val.num 21, Val.num 22, Val.num 23, Val.num 24],
           [Val.num 31, Val.num 32, Val.num 33, Val.num 34]] 4 "T" 0 Option.none
          (fun j => j + 2) "Incomplete Inventory > 0") (0, [])).1 = 1
    ∧ (applyEffs "T"
        (copy_data_body_range
          [[Val.num 11, Val.num 12, Val.num 13, Val.num 14],
           [Val.num 21, Val.num 22, Val.num 23, Val.num 24],
           [Val.num 31, Val.num 32, Val.num 33, Val.num 34]] 4 "T" 0 Option.none
          (fun j => j + 2) "Incomplete Inventory > 0") (0, [])).2.filter
        (fun p => p.1 ≤ 1) =
      [(1, 3, Val.num 11), (1, 4, Val.num 12), (1, 5, Val.num 13)] := by
  refine ⟨?_, by decide, by decide⟩
  intro values C dt rc dc off nm
  refine ⟨rfl, flatMap_range_map_length _ _ _, ?_⟩
  intro e he
  simp only [patternA_writes, List.mem_flatMap, List.mem_map, List.mem_range] at he
  obtain ⟨i0, hi, j0, hj, rfl⟩ := he
  exact ⟨i0, j0, hi, hj, rfl⟩

/-- Witness for C1: the theorem applied at a concrete write of the 3×4 grid,
its membership hypothesis discharged by evaluation. -/
theorem C1_patternA_copy_witness :
    ∃ i0 j0, i0 < 3 ∧ j0 < 3 ∧
      Eff.writeCell "T" 1 3 (Val.num 11) =
        Eff.writeCell "T" (0 + 1 + i0) ((fun j => j + 2) (j0 + 1))
          (([[Val.num 11, Val.num 12, Val.num 13, Val.num 14],
             [Val.num 21, Val.num 22, Val.num 23, Val.num 24],
             [Val.num 31, Val.num 32, Val.num 33, Val.num 34]].getD i0 []).getD j0 Val.none) :=
  (C1_patternA_copy.1
      [[Val.num 11, Val.num 12, Val.num 13, Val.num 14],
       [Val.num 21, Val.num 22, Val.num 23, Val.num 24],
       [Val.num 31, Val.num 32, Val.num 33, Val.num 34]] 4 "T" 0 Option.none
      (fun j => j + 2) "Incomplete Inventory > 0").2.2
    (Eff.writeCell "T" 1 3 (Val.num 11)) (by decide)

/-! ### C2 — Pattern C destination-column lookup -/

/-- C2 counterexample: the destination-column lookup of Pattern C is
case-sensitive.  A header containing the label in different letter case
(equal after ASCII lowercasing) is not found, and the operation degenerates
to the warning-only path — refuting the claim that the lookup succeeds
regardless of letter case. -/
theorem C2_patternC_case_counterexample :
    ("Full Day SUBMIT".toList.map lowerChar = "full day submit".toList.map lowerChar)
    ∧ findDestCol [Val.str "Total", Val.str "full day submit"] "Full Day SUBMIT" =
        Option.none
    ∧ previous_full_day_lookup [[Val.str "PREVIOUS FULL DAY", Val.num 7]]
        [Val.str "Total", Val.str "full day submit"] [[Val.none, Val.none]] "T"
        "Full Day SUBMIT" "PREVIOUS FULL DAY" "op" =
        [Eff.logWarning "Column 'Full Day SUBMIT' not found for op"] := by
  refine ⟨by decide, by decide, by decide⟩

/-- C2 (amended): the destination-column lookup of Pattern C succeeds for an
exact (case-sensitive) match regardless of the label's position within the
header row, and whenever no header cell matches the label exactly the
operation performs no write — its only effect is the warning log line. -/
theorem C2_patternC_header_lookup :
    (∀ (header : List Val) (label : String),
        Val.str label ∈ header → (findDestCol header label).isSome = true)
    ∧ (∀ (values : List (List Val)) (destHeader : List Val)
         (destBody : List (List Val)) (dt label kw nm : String),
        findDestCol destHeader label = Option.none →
        previous_full_day_lookup values destHeader destBody dt label kw nm =
          [Eff.logWarning ("Column '" ++ label ++ "' not found for " ++ nm)]) := by
  constructor
  · intro header label hmem
    have h := findIdx?_isSome_of_mem (fun v => v == Val.str label) header
      (Val.str label) hmem (by simp)
    unfold findDestCol
    cases hf : header.findIdx? (fun v => v == Val.str label) with
    | none => rw [hf] at h; simp at h
    | some i => simp
  · intro values destHeader destBody dt label kw nm h
    unfold previous_full_day_lookup
    rw [h]

/-- Witness for C2's amended theorem: lookup succeeds with the label in
second position, and a lookup miss yields exactly the warning line. -/
theorem C2_patternC_header_lookup_witness :
    (findDestCol [Val.str "Total", Val.str "Full Day SUBMIT"] "Full Day SUBMIT").isSome = true
    ∧ previous_full_day_lookup [[Val.str "PREVIOUS FULL DAY", Val.num 7]]
        [Val.str "Total"] [[Val.none]] "T" "Full Day SUBMIT" "PREVIOUS FULL DAY" "op" =
        [Eff.logWarning "Column 'Full Day SUBMIT' not found for op"] :=
  ⟨C2_patternC_header_lookup.1 [Val.str "Total", Val.str "Full Day SUBMIT"]
      "Full Day SUBMIT" (by decide),
   C2_patternC_header_lookup.2 [[Val.str "PREVIOUS FULL DAY", Val.num 7]]
      [Val.str "Total"] [[Val.none]] "T" "Full Day SUBMIT" "PREVIOUS FULL DAY" "op"
      (by decide)⟩

/-! ### C3 — Patterns B and D on keyword-not-found -/

/-- C3 counterexample: Pattern D (`_single_cell_extraction`) searches before
appending, so on keyword-not-found the destination row count is exactly
unchanged — not "unchanged except for the one row already appended before
the search": starting from 5 rows it stays at 5, refuting the `+1` the
claim asserts for D. -/
theorem C3_BD_counterexample :
    findKwRow [[Val.str "hdr"], [Val.str "nothing here"]] 2 "eStore" = Option.none
    ∧ single_cell_extraction [[Val.str "hdr"], [Val.str "nothing here"]] "T" 5 2
        "eStore" 7 "op" = [Eff.logWarning "Keyword 'eStore' not found for op"]
    ∧ (applyEffs "T"
        (single_cell_extraction [[Val.str "hdr"], [Val.str "nothing here"]] "T" 5 2
          "eStore" 7 "op") (5, [])).1 ≠ 5 + 1 := by
  refine ⟨by decide, by decide, by decide⟩

/-- C3 (amended): on keyword-not-found both handlers log a warning and
return without raising; Pattern B has already appended (and possibly
date-stamped) one row, so its destination row count ends at `rc + 1` with
no further writes, while Pattern D searches before appending, so its
destination table is left completely unchanged. -/
theorem C3_BD_not_found :
    ∀ (values : List (List Val)) (num_cols : Nat) (dt : String) (rc : Nat)
      (dc : Option (Nat × String)) (rsB rsD : Nat) (kw : String)
      (off : Nat → Nat) (xc : Nat) (nm : String) (cs : List (Nat × Nat × Val)),
      findKwRow values rsB kw = Option.none →
      findKwRow values rsD kw = Option.none →
      (search_row_copy_columns values num_cols dt rc dc rsB kw off nm =
          [Eff.addRow dt] ++ dateEffs dt (rc + 1) dc
            ++ [Eff.logWarning ("Keyword '" ++ kw ++ "' not found for " ++ nm)]
        ∧ (applyEffs dt (search_row_copy_columns values num_cols dt rc dc rsB kw off nm)
            (rc, cs)).1 = rc + 1)
      ∧ (single_cell_extraction values dt rc rsD kw xc nm =
          [Eff.logWarning ("Keyword '" ++ kw ++ "' not found for " ++ nm)]
        ∧ applyEffs dt (single_cell_extraction values dt rc rsD kw xc nm) (rc, cs) =
            (rc, cs)) := by
  intro values num_cols dt rc dc rsB rsD kw off xc nm cs hB hD
  refine ⟨⟨?_, ?_⟩, ⟨?_, ?_⟩⟩
  · simp only [search_row_copy_columns, hB]
  · simp only [search_row_copy_columns, hB]
    cases dc with
    | none => simp [applyEffs, dateEffs]
    | some p =>
        obtain ⟨c, v⟩ := p
        simp [applyEffs, dateEffs]
  · simp only [single_cell_extraction, hD]
  · simp only [single_cell_extraction, hD]
    simp [applyEffs]

/-- Witness for C3's amended theorem at a concrete no-match input. -/
theorem C3_BD_not_found_witness :
    (search_row_copy_columns [[Val.str "hdr"], [Val.str "nothing here"]] 5 "T" 4
        Option.none 1 "eStore" (fun j => j - 1) "op" =
        [Eff.addRow "T"] ++ dateEffs "T" 5 Option.none
          ++ [Eff.logWarning "Keyword 'eStore' not found for op"]
      ∧ (applyEffs "T" (search_row_copy_columns [[Val.str "hdr"], [Val.str "nothing here"]]
          5 "T" 4 Option.none 1 "eStore" (fun j => j - 1) "op") (4, [])).1 = 4 + 1)
    ∧ (single_cell_extraction [[Val.str "hdr"], [Val.str "nothing here"]] "T" 4 2
          "eStore" 7 "op" = [Eff.logWarning "Keyword 'eStore' not found for op"]
      ∧ applyEffs "T" (single_cell_extraction [[Val.str "hdr"], [Val.str "nothing here"]]
          "T" 4 2 "eStore" 7 "op") (4, []) = (4, [])) :=
  C3_BD_not_found [[Val.str "hdr"], [Val.str "nothing here"]] 5 "T" 4 Option.none 1 2
    "eStore" (fun j => j - 1) 7 "op" [] (by decide) (by decide)

/-! ### C4 — Pattern E blank-row zero-fill -/

/-- C4: Pattern E (`_search_row_with_blank_check`) on a matched keyword row:
if every value of the row past the first cell is empty or zero then zero is
written for every destination column `col_offset j`, `2 ≤ j ≤ N` (`N` the
full-range column count, trailing total column included); otherwise the
row's values are copied verbatim, including the trailing column. -/
theorem C4_patternE_blank_or_verbatim :
    ∀ (values : List (List Val)) (dt : String) (rc : Nat)
      (dc : Option (Nat × String)) (rs : Nat) (kw : String)
      (off : Nat → Nat) (nm : String) (t : List Val),
      findKwRow values rs kw = some t →
      ((t.drop 1).all Val.isBlankZero = true →
         ∀ j, 2 ≤ j → j ≤ (values.headD []).length →
           Eff.writeCell dt (rc + 1) (off j) (Val.num 0) ∈
             search_row_with_blank_check values dt rc dc rs kw off nm)
      ∧ ((t.drop 1).all Val.isBlankZero = false →
         ∀ j, 2 ≤ j → j ≤ (values.headD []).length →
           Eff.writeCell dt (rc + 1) (off j) (t.getD (j - 1) Val.none) ∈
             search_row_with_blank_check values dt rc dc rs kw off nm) := by
  intro values dt rc dc rs kw off nm t hfind
  constructor <;> intro hblank j h2 hN <;>
    obtain ⟨j0, rfl⟩ : ∃ j0, j = j0 + 2 := ⟨j - 2, by omega⟩ <;>
    · simp only [search_row_with_blank_check, hfind]
      refine List.mem_append_left _ (List.mem_append_right _ ?_)
      refine List.mem_map.mpr ⟨j0, List.mem_range.mpr (by omega), ?_⟩
      simp only [hblank]
      simp

/-- Witness for C4 at concrete inputs: an all-blank matched row yields a
zero write, a non-blank one a verbatim write. -/
theorem C4_patternE_blank_or_verbatim_witness :
    Eff.writeCell "T" 1 3 (Val.num 0) ∈
      search_row_with_blank_check
        [[Val.str "x", Val.num 9, Val.num 9], [Val.str "REGULAR", Val.num 0, Val.str ""]]
        "T" 0 Option.none 2 "REGULAR" (fun j => j + 1) "op" :=
  ((C4_patternE_blank_or_verbatim
      [[Val.str "x", Val.num 9, Val.num 9], [Val.str "REGULAR", Val.num 0, Val.str ""]]
      "T" 0 Option.none 2 "REGULAR" (fun j => j + 1) "op"
      [Val.str "REGULAR", Val.num 0, Val.str ""] (by decide)).1 (by decide)) 2
    (by decide) (by decide)

/-! ### C6 — composite-task outcome combination -/

/-- C6: the `both` branch succeeds exactly when both children succeed, emits
a partial-failure message naming exactly the failed side when one child
succeeds, and a failure message when neither does; and in the `all` branch,
whenever the download phase is not fully successful the report phase is
never invoked and a descriptive failure message is reported. -/
theorem C6_both_all :
    (∀ w s : Bool, (bothOutcome w s).1 = true ↔ (w = true ∧ s = true))
    ∧ bothOutcome true false = (false, "Partial success: Website ✓, SAP ✗")
    ∧ bothOutcome false true = (false, "Partial success: Website ✗, SAP ✓")
    ∧ bothOutcome false false = (false, "Both scripts failed!")
    ∧ (∀ (w s : Bool) (r : Option String), ¬(w = true ∧ s = true) →
        (allOutcome w s r).reportInvoked = false
        ∧ (allOutcome w s r).finished.1 = false
        ∧ (allOutcome w s r).finished.2 =
            "Downloads failed — " ++
            (if w = false ∧ s = false then "both PDBS and SAP failed."
             else if w = false then "PDBS failed, SAP succeeded."
             else "PDBS succeeded, SAP failed.") ++ " Excel report skipped.") := by
  refine ⟨by decide, by decide, by decide, by decide, ?_⟩
  intro w s r h
  cases w <;> cases s <;> simp_all [allOutcome]

/-- Witness for C6: the `all` branch with a failed SAP download skips the
report phase and reports the corresponding message. -/
theorem C6_both_all_witness :
    (allOutcome true false Option.none).reportInvoked = false
    ∧ (allOutcome true false Option.none).finished.1 = false
    ∧ (allOutcome true false Option.none).finished.2 =
        "Downloads failed — " ++
        (if (true = false ∧ false = false) then "both PDBS and SAP failed."
         else if (true = false) then "PDBS failed, SAP succeeded."
         else "PDBS succeeded, SAP failed.") ++ " Excel report skipped." :=
  C6_both_all.2.2.2.2 true false Option.none (by decide)

/-! ### C7 — operations loop: isolation, order, progress events -/

lemma operationsLoop_spec (total : Nat) (exc : Nat → Op → Option String) :
    ∀ (ops : List Op) (start : Nat),
      (∀ op ∈ ops, (DISPATCH op.pattern).isSome = true) →
      (operationsLoop total exc start ops).events.length = ops.length
      ∧ (∀ i, i < ops.length →
          (operationsLoop total exc start ops).events.getD i (0, "") =
            (20 + ((start + i) * 70) / total, (ops.getD i default).name))
      ∧ (∀ i, i < ops.length → ∀ e, exc (start + i) (ops.getD i default) = some e →
          ("Operation '" ++ (ops.getD i default).name ++ "' failed: " ++ e) ∈
            (operationsLoop total exc start ops).errors) := by
  intro ops
  induction ops with
  | nil =>
      intro start h
      refine ⟨rfl, ?_, ?_⟩ <;> intro i hi <;> simp at hi
  | cons op rest ih =>
      intro start h
      have hop : (DISPATCH op.pattern).isSome = true := h op (List.mem_cons_self _ _)
      have hrest := ih (start + 1) (fun o ho => h o (List.mem_cons_of_mem _ ho))
      have hnone : (DISPATCH op.pattern).isNone = false := by
        cases hD : DISPATCH op.pattern with
        | none => rw [hD] at hop; simp at hop
        | some f => simp
      have hshape : operationsLoop total exc start (op :: rest) =
          ⟨(20 + (start * 70) / total, op.name) ::
              (operationsLoop total exc (start + 1) rest).events,
            (match exc start op with
              | some e => ["Operation '" ++ op.name ++ "' failed: " ++ e]
              | Option.none => []) ++
              (operationsLoop total exc (start + 1) rest).errors⟩ := by
        simp only [operationsLoop, hnone, Bool.false_eq_true, if_false]
      rw [hshape]
      refine ⟨by simp [hrest.1], ?_, ?_⟩
      · intro i hi
        match i with
        | 0 => simp
        | Nat.succ i =>
            have hr := hrest.2.1 i (by simpa using hi)
            simpa [Nat.add_assoc, Nat.add_comm 1 i] using hr
      · intro i hi e he
        match i with
        | 0 =>
            simp only [Nat.add_zero, List.getD_cons_zero] at he
            simp [he]
        | Nat.succ i =>
            have hr := hrest.2.2 i (by simpa using hi) e (by
              rw [show start + 1 + i = start + (i + 1) by omega]
              simpa using he)
            simp only [List.getD_cons_succ]
            exact List.mem_append_right _ hr

/-- C7: for any operation list all of whose patterns have a handler in
`_DISPATCH`, and any assignment of exceptions to operations, the loop never
propagates an exception: it emits exactly one progress event per operation,
in plan order, with percent `20 + (idx·70)/total` (which lies in `20..90`),
and logs the error line of every operation whose handler raised. -/
theorem C7_execute_operations :
    ∀ (ops : List Op) (exc : Nat → Op → Option String),
      (∀ op ∈ ops, (DISPATCH op.pattern).isSome = true) →
      (executeOperations ops exc).events.length = ops.length
      ∧ (∀ i, i < ops.length →
          (executeOperations ops exc).events.getD i (0, "") =
            (20 + ((i + 1) * 70) / (if ops.length = 0 then 1 else ops.length),
             (ops.getD i default).name))
      ∧ (∀ ev ∈ (executeOperations ops exc).events, 20 ≤ ev.1 ∧ ev.1 ≤ 90)
      ∧ (∀ i, i < ops.length → ∀ e, exc (i + 1) (ops.getD i default) = some e →
          ("Operation '" ++ (ops.getD i default).name ++ "' failed: " ++ e) ∈
            (executeOperations ops exc).errors) := by
  intro ops exc h
  have hs := operationsLoop_spec (if ops.length = 0 then 1 else ops.length) exc ops 1 h
  refine ⟨hs.1, ?_, ?_, ?_⟩
  · intro i hi
    have hr := hs.2.1 i hi
    rw [show 1 + i = i + 1 by omega] at hr
    exact hr
  · intro ev hev
    simp only [executeOperations] at hev
    obtain ⟨i, hi, hget⟩ := List.mem_iff_getElem.mp hev
    have hlen : i < ops.length := by rw [← hs.1]; exact hi
    have heq := hs.2.1 i hlen
    rw [List.getD_eq_getElem _ _ hi, hget] at heq
    have htot : 1 ≤ (if ops.length = 0 then 1 else ops.length) := by
      split <;> omega
    have hle : i + 1 ≤ (if ops.length = 0 then 1 else ops.length) := by
      split <;> omega
    have hdiv : ((1 + i) * 70) / (if ops.length = 0 then 1 else ops.length) ≤ 70 := by
      calc ((1 + i) * 70) / (if ops.length = 0 then 1 else ops.length)
          ≤ ((if ops.length = 0 then 1 else ops.length) * 70) /
              (if ops.length = 0 then 1 else ops.length) :=
            Nat.div_le_div_right (Nat.mul_le_mul_right 70 (by omega))
        _ = 70 := Nat.mul_div_cancel_left 70 (by omega)
    rw [heq]
    constructor
    · exact Nat.le_add_right 20 _
    · simpa using Nat.add_le_add_left hdiv 20
  · intro i hi e he
    have hr := hs.2.2 i hi e (by rw [show 1 + i = i + 1 by omega]; exact he)
    exact hr

/-- Witness for C7 at the real plan (19 operations, all dispatchable) with a
failing handler on operation 3: 19 events, the third percent is
`20 + (3·70)/19 = 31`, and the error line is logged. -/
theorem C7_execute_operations_witness :
    (executeOperations (build_operations "2025-01-02" "2024-12-31")
        (fun idx _ => if idx = 3 then some "boom" else Option.none)).events.length =
      (build_operations "2025-01-02" "2024-12-31").length
    ∧ ("Operation '" ++
        ((build_operations "2025-01-02" "2024-12-31").getD 2 default).name ++
        "' failed: " ++ "boom") ∈
      (executeOperations (build_operations "2025-01-02" "2024-12-31")
        (fun idx _ => if idx = 3 then some "boom" else Option.none)).errors :=
  have hc := C7_execute_operations (build_operations "2025-01-02" "2024-12-31")
    (fun idx _ => if idx = 3 then some "boom" else Option.none)
    (by decide)
  ⟨hc.1, hc.2.2.2 2 (by decide) "boom" (by decide)⟩

/-! ### C8 — conversion lock discipline -/

/-- C8: `convert_xls_to_xlsx` acquires the operation lock with a timeout
defaulting to 60; on acquisition timeout it returns `False` without touching
any document and without a release (the lock was never held); on every path
where the lock was acquired — success or exception — the last action is the
lock release, and the return value is `True` exactly when the conversion
body succeeded. -/
theorem C8_convert_lock :
    (∀ (a : Bool) (b : Except String Unit),
        convert_xls_to_xlsx a b = convert_xls_to_xlsx a b 60)
    ∧ (∀ (a : Bool) (b : Except String Unit) (t : Nat),
        (convert_xls_to_xlsx a b t).2.head? = some (MEv.acquireAttempt t))
    ∧ (∀ (b : Except String Unit) (t : Nat),
        convert_xls_to_xlsx false b t =
          (false, [MEv.acquireAttempt t,
                   MEv.logErr ("Timeout waiting for Excel lock (" ++ toString t ++ "s)")]))
    ∧ (∀ (b : Except String Unit) (t : Nat),
        MEv.docOp ∉ (convert_xls_to_xlsx false b t).2)
    ∧ (∀ (b : Except String Unit) (t : Nat),
        MEv.release ∉ (convert_xls_to_xlsx false b t).2)
    ∧ (∀ (b : Except String Unit) (t : Nat),
        (convert_xls_to_xlsx true b t).2.getLast? = some MEv.release)
    ∧ (∀ (b : Except String Unit) (t : Nat),
        ((convert_xls_to_xlsx true b t).1 = true ↔ b.isOk = true)) := by
  refine ⟨fun a b => rfl, ?_, fun b t => rfl, ?_, ?_, ?_, ?_⟩
  · intro a b t
    cases a <;> cases b <;> rfl
  · intro b t
    simp [convert_xls_to_xlsx]
  · intro b t
    simp [convert_xls_to_xlsx]
  · intro b t
    cases b <;> rfl
  · intro b t
    cases b <;> simp [convert_xls_to_xlsx, Except.isOk, Except.toBool]

/-! ### C9 — well-formedness of the operation plan -/

/-- C9: `_build_operations` returns exactly 19 records; every record's
pattern is one of A–F with a handler in `_DISPATCH`; and dispatching any
record to its handler never fails on a missing field (field extraction
succeeds for every workbook context). -/
theorem C9_operation_plan :
    ∀ today_str prev_bday_str : String,
      (build_operations today_str prev_bday_str).length = 19
      ∧ (∀ op ∈ build_operations today_str prev_bday_str,
          op.pattern ∈ (["A", "B", "C", "D", "E", "F"] : List String)
          ∧ ∃ h, DISPATCH op.pattern = some h
              ∧ ∀ ctx : Ctx, (h op ctx).isOk = true) := by
  intro t p
  refine ⟨rfl, ?_⟩
  intro op hop
  simp only [build_operations, List.mem_cons, List.not_mem_nil, or_false] at hop
  rcases hop with rfl|rfl|rfl|rfl|rfl|rfl|rfl|rfl|rfl|rfl|rfl|rfl|rfl|rfl|rfl|rfl|rfl|rfl|rfl <;>
    first
      | exact ⟨by simp, runA, rfl, fun _ => rfl⟩
      | exact ⟨by simp, runB, rfl, fun _ => rfl⟩
      | exact ⟨by simp, runC, rfl, fun _ => rfl⟩
      | exact ⟨by simp, runD, rfl, fun _ => rfl⟩
      | exact ⟨by simp, runE, rfl, fun _ => rfl⟩
      | exact ⟨by simp, runF, rfl, fun _ => rfl⟩

/-- Witness for C9 at the head of the concrete plan. -/
theorem C9_operation_plan_witness :
    ((build_operations "2025-01-02" "2024-12-31").getD 0 default).pattern ∈
        (["A", "B", "C", "D", "E", "F"] : List String)
    ∧ ∃ h, DISPATCH ((build_operations "2025-01-02" "2024-12-31").getD 0 default).pattern =
          some h
        ∧ ∀ ctx : Ctx,
            (h ((build_operations "2025-01-02" "2024-12-31").getD 0 default) ctx).isOk = true :=
  (C9_operation_plan "2025-01-02" "2024-12-31").2 _
    (by rw [List.getD_eq_getElem _ _ (by decide)]; exact List.getElem_mem _)

/-! ### Calendar arithmetic lemmas -/

lemma daysInMonth_pos (y m : Nat) (h1 : 1 ≤ m) (h2 : m ≤ 12) : 1 ≤ daysInMonth y m := by
  interval_cases m <;> simp [daysInMonth] <;> split <;> omega

lemma daysInMonth_12 (y : Nat) : daysInMonth y 12 = 31 := by simp [daysInMonth]

lemma daysInMonth_feb_ge (y : Nat) : 28 ≤ daysInMonth y 2 := by
  simp [daysInMonth]; split <;> omega

lemma daysBeforeMonth_one (y : Nat) : daysBeforeMonth y 1 = 0 := by
  simp [daysBeforeMonth]

lemma daysBeforeMonth_succ (y m : Nat) (h : 1 ≤ m) :
    daysBeforeMonth y (m + 1) = daysBeforeMonth y m + daysInMonth y m := by
  obtain ⟨k, rfl⟩ : ∃ k, m = k + 1 := ⟨m - 1, by omega⟩
  simp [daysBeforeMonth, Finset.sum_range_succ]

lemma daysBeforeMonth_12_add (y : Nat) :
    daysBeforeMonth y 12 + 31 = 365 + (if isLeap y then 1 else 0) := by
  simp [daysBeforeMonth, Finset.sum_range_succ, daysInMonth]
  split <;> omega

lemma daysBeforeMonth_lower (y m : Nat) (h : 2 ≤ m) : 31 ≤ daysBeforeMonth y m := by
  have h0 : (0 : Nat) ∈ Finset.range (m - 1) := Finset.mem_range.mpr (by omega)
  have := Finset.single_le_sum (f := fun i => daysInMonth y (i + 1))
    (fun i _ => Nat.zero_le _) h0
  simpa [daysBeforeMonth, daysInMonth] using this

lemma daysBeforeMonth_mono (y a b : Nat) (h : a ≤ b) :
    daysBeforeMonth y a ≤ daysBeforeMonth y b :=
  Finset.sum_le_sum_of_subset (Finset.range_subset.mpr (by omega))

lemma isLeap_iff (y : Nat) :
    isLeap y = true ↔ ((y % 4 = 0 ∧ ¬ y % 100 = 0) ∨ y % 400 = 0) := by
  simp [isLeap]

lemma daysBeforeYear_succ (y : Nat) (h : 1 ≤ y) :
    daysBeforeYear (y + 1) = daysBeforeYear y + 365 + (if isLeap y then 1 else 0) := by
  by_cases hl : isLeap y = true
  · rw [if_pos hl]
    rw [isLeap_iff] at hl
    unfold daysBeforeYear leapsBefore
    omega
  · rw [if_neg hl]
    rw [isLeap_iff] at hl
    unfold daysBeforeYear leapsBefore
    omega

lemma daysBeforeYear_mono (a b : Nat) (h : a ≤ b) : daysBeforeYear a ≤ daysBeforeYear b := by
  unfold daysBeforeYear leapsBefore
  omega

lemma rank_pos (x : Date) (h : x.Valid) : 1 ≤ x.rank := by
  obtain ⟨y, m, d⟩ := x
  simp only [Date.Valid] at h
  simp only [Date.rank]
  omega

lemma rank_base : (Date.rank ⟨1, 1, 1⟩) = 1 := by
  simp [Date.rank, daysBeforeYear, leapsBefore, daysBeforeMonth]

lemma rank_eq_one (x : Date) (h : x.Valid) (h1 : x.rank = 1) : x = ⟨1, 1, 1⟩ := by
  obtain ⟨y, m, d⟩ := x
  simp only [Date.Valid] at h
  obtain ⟨hv1, hv2, hv3, hv4, hv5⟩ := h
  simp only [Date.rank] at h1
  have hm1 : m = 1 := by
    by_contra hc
    have := daysBeforeMonth_lower y m (by omega)
    omega
  subst hm1
  rw [daysBeforeMonth_one] at h1
  have hy1 : y = 1 := by
    unfold daysBeforeYear leapsBefore at h1
    omega
  subst hy1
  have hd1 : d = 1 := by
    unfold daysBeforeYear leapsBefore at h1
    omega
  rw [hd1]

lemma rank_pred (x : Date) (hv : x.Valid) (h2 : 2 ≤ x.rank) :
    x.pred.rank = x.rank - 1 := by
  obtain ⟨y, m, d⟩ := x
  simp only [Date.Valid] at hv
  obtain ⟨hv1, hv2, hv3, hv4, hv5⟩ := hv
  simp only [Date.rank] at h2 ⊢
  simp only [Date.pred]
  split_ifs with hd hm
  · simp only [Date.rank]
    omega
  · simp only [Date.rank]
    have hs := daysBeforeMonth_succ y (m - 1) (by omega)
    rw [show m - 1 + 1 = m by omega] at hs
    omega
  · have hd1 : d = 1 := by omega
    have hm1 : m = 1 := by omega
    subst hd1; subst hm1
    rw [daysBeforeMonth_one] at h2
    have hy2 : 2 ≤ y := by
      unfold daysBeforeYear leapsBefore at h2
      omega
    simp only [Date.rank]
    rw [daysBeforeMonth_one]
    have h5 := daysBeforeYear_succ (y - 1) (by omega)
    rw [show y - 1 + 1 = y by omega] at h5
    have h3 := daysBeforeMonth_12_add (y - 1)
    generalize hb : (if isLeap (y - 1) then 1 else 0) = b at h5 h3
    omega

lemma valid_pred (x : Date) (hv : x.Valid) (h2 : 2 ≤ x.rank) : x.pred.Valid := by
  obtain ⟨y, m, d⟩ := x
  simp only [Date.Valid] at hv
  obtain ⟨hv1, hv2, hv3, hv4, hv5⟩ := hv
  simp only [Date.rank] at h2
  simp only [Date.pred]
  split_ifs with hd hm
  · exact ⟨hv1, hv2, hv3, by omega, by omega⟩
  · exact ⟨hv1, by omega, by omega,
      daysInMonth_pos y (m - 1) (by omega) (by omega), le_refl _⟩
  · have hd1 : d = 1 := by omega
    have hm1 : m = 1 := by omega
    subst hd1; subst hm1
    rw [daysBeforeMonth_one] at h2
    have hy2 : 2 ≤ y := by
      unfold daysBeforeYear leapsBefore at h2
      omega
    exact ⟨by omega, by omega, by omega, by omega, by rw [daysInMonth_12]⟩

lemma succ_pred (x : Date) (hv : x.Valid) (h2 : 2 ≤ x.rank) : x.pred.succ = x := by
  obtain ⟨y, m, d⟩ := x
  simp only [Date.Valid] at hv
  obtain ⟨hv1, hv2, hv3, hv4, hv5⟩ := hv
  simp only [Date.rank] at h2
  simp only [Date.pred]
  split_ifs with hd hm
  · simp only [Date.succ]
    rw [if_pos (by omega)]
    rw [show d - 1 + 1 = d by omega]
  · have hd1 : d = 1 := by omega
    subst hd1
    simp only [Date.succ]
    rw [if_neg (by omega), if_pos (by omega)]
    rw [show m - 1 + 1 = m by omega]
  · have hd1 : d = 1 := by omega
    have hm1 : m = 1 := by omega
    subst hd1; subst hm1
    rw [daysBeforeMonth_one] at h2
    have hy2 : 2 ≤ y := by
      unfold daysBeforeYear leapsBefore at h2
      omega
    simp only [Date.succ, daysInMonth_12]
    rw [if_neg (by omega), if_neg (by omega)]
    rw [show y - 1 + 1 = y by omega]

lemma fromRank_rank : ∀ (n : Nat) (x : Date), x.Valid → x.rank = n → fromRank n = x := by
  intro n
  induction n using Nat.strong_induction_on with
  | _ n ih =>
      intro x hv hr
      by_cases h1 : x.rank = 1
      · have hx := rank_eq_one x hv h1
        subst hx
        rw [← hr, h1]
        rfl
      · have h2 : 2 ≤ x.rank := by have := rank_pos x hv; omega
        have hpv := valid_pred x hv h2
        have hpr := rank_pred x hv h2
        have hIH := ih (n - 1) (by omega) x.pred hpv (by omega)
        subst hr
        have hstep : fromRank x.rank = (fromRank (x.rank - 1)).succ := by
          unfold fromRank
          rw [show x.rank - 1 = (x.rank - 2) + 1 by omega,
            Function.iterate_succ_apply']
          rw [show x.rank - 2 + 1 - 1 = x.rank - 2 by omega]
        rw [hstep, hIH, succ_pred x hv h2]

lemma rank_injOn (a b : Date) (ha : a.Valid) (hb : b.Valid) (h : a.rank = b.rank) :
    a = b := by
  have h1 := fromRank_rank a.rank a ha rfl
  have h2 := fromRank_rank b.rank b hb rfl
  rw [← h1, ← h2, h]

lemma subDays_succ (x : Date) (k : Nat) : subDays x (k + 1) = subDays x.pred k := by
  unfold subDays
  exact Function.iterate_succ_apply Date.pred k x

lemma subDays_spec : ∀ (k : Nat) (x : Date), x.Valid → k + 1 ≤ x.rank →
    (subDays x k).Valid ∧ (subDays x k).rank = x.rank - k := by
  intro k
  induction k with
  | zero =>
      intro x hv _
      exact ⟨hv, by simp [subDays]⟩
  | succ k ih =>
      intro x hv hk
      have h2 : 2 ≤ x.rank := by omega
      have hpv := valid_pred x hv h2
      have hpr := rank_pred x hv h2
      have hr := ih x.pred hpv (by omega)
      rw [subDays_succ]
      exact ⟨hr.1, by omega⟩

lemma addDays_in_month (y m : Nat) : ∀ (k d : Nat), d + k ≤ daysInMonth y m →
    addDays ⟨y, m, d⟩ k = ⟨y, m, d + k⟩ := by
  intro k
  induction k with
  | zero => intro d _; simp [addDays]
  | succ k ih =>
      intro d h
      have hsucc : Date.succ ⟨y, m, d⟩ = ⟨y, m, d + 1⟩ := by
        simp only [Date.succ]
        rw [if_pos (by omega)]
      have hstep : addDays ⟨y, m, d⟩ (k + 1) = addDays ⟨y, m, d + 1⟩ k := by
        unfold addDays
        rw [Function.iterate_succ_apply, hsucc]
      rw [hstep, ih (d + 1) (by omega), show d + 1 + k = d + (k + 1) by omega]

lemma subDays_in_month (y m : Nat) : ∀ (k d : Nat), k < d →
    subDays ⟨y, m, d⟩ k = ⟨y, m, d - k⟩ := by
  intro k
  induction k with
  | zero => intro d _; simp [subDays]
  | succ k ih =>
      intro d h
      have hpred : Date.pred ⟨y, m, d⟩ = ⟨y, m, d - 1⟩ := by
        simp only [Date.pred]
        rw [if_pos (by omega)]
      rw [subDays_succ, hpred, ih (d - 1) (by omega),
        show d - 1 - k = d - (k + 1) by omega]

lemma ite_weekday_zero_eq (b : Date) :
    (if b.weekday = 0 then b else addDays b ((7 - b.weekday) % 7)) =
      addDays b ((7 - b.weekday) % 7) := by
  split_ifs with h
  · rw [h]
    simp [addDays]
  · rfl

lemma ite_weekday_three_eq (b : Date) :
    (if b.weekday = 3 then b else addDays b ((3 + 7 - b.weekday) % 7)) =
      addDays b ((3 + 7 - b.weekday) % 7) := by
  split_ifs with h
  · rw [h]
    simp [addDays]
  · rfl

/-- The holiday set in explicit closed form: every element is a `Date`
literal of year `Y`. -/
lemma get_company_holidays_eq (Y : Nat) :
    get_company_holidays Y =
      insert (⟨Y, 11, 1 + (3 + 7 - Date.weekday ⟨Y, 11, 1⟩) % 7 + 21 + 1⟩ : Date)
        (insert (⟨Y, 11, 1 + (3 + 7 - Date.weekday ⟨Y, 11, 1⟩) % 7 + 21⟩ : Date)
          (insert (⟨Y, 9, 1 + (7 - Date.weekday ⟨Y, 9, 1⟩) % 7⟩ : Date)
            (insert (⟨Y, 5, 31 - (Date.weekday ⟨Y, 5, 31⟩ - 0) % 7⟩ : Date)
              (insert (⟨Y, 2, 1 + (7 - Date.weekday ⟨Y, 2, 1⟩) % 7 + 14⟩ : Date)
                (insert (⟨Y, 1, 1 + (7 - Date.weekday ⟨Y, 1, 1⟩) % 7 + 14⟩ : Date)
                  (if Date.weekday ⟨Y, 7, 4⟩ = 5 then
                    insert (⟨Y, 7, 3⟩ : Date)
                      ({⟨Y, 1, 1⟩, ⟨Y, 6, 19⟩, ⟨Y, 7, 4⟩, ⟨Y, 12, 24⟩, ⟨Y, 12, 25⟩} :
                        Finset Date)
                  else if Date.weekday ⟨Y, 7, 4⟩ = 6 then
                    insert (⟨Y, 7, 5⟩ : Date)
                      ({⟨Y, 1, 1⟩, ⟨Y, 6, 19⟩, ⟨Y, 7, 4⟩, ⟨Y, 12, 24⟩, ⟨Y, 12, 25⟩} :
                        Finset Date)
                  else
                    ({⟨Y, 1, 1⟩, ⟨Y, 6, 19⟩, ⟨Y, 7, 4⟩, ⟨Y, 12, 24⟩, ⟨Y, 12, 25⟩} :
                      Finset Date))))))) := by
  have hw1 : (7 - Date.weekday ⟨Y, 1, 1⟩) % 7 < 7 := Nat.mod_lt _ (by omega)
  have hw2 : (7 - Date.weekday ⟨Y, 2, 1⟩) % 7 < 7 := Nat.mod_lt _ (by omega)
  have hw5 : (Date.weekday ⟨Y, 5, 31⟩ - 0) % 7 < 7 := Nat.mod_lt _ (by omega)
  have hw9 : (7 - Date.weekday ⟨Y, 9, 1⟩) % 7 < 7 := Nat.mod_lt _ (by omega)
  have hw11 : (3 + 7 - Date.weekday ⟨Y, 11, 1⟩) % 7 < 7 := Nat.mod_lt _ (by omega)
  simp only [get_company_holidays]
  rw [ite_weekday_zero_eq, ite_weekday_zero_eq, ite_weekday_zero_eq,
    ite_weekday_three_eq]
  rw [addDays_in_month Y 1 _ 1 (by simp [daysInMonth]; omega)]
  rw [addDays_in_month Y 1 14 _ (by simp [daysInMonth]; omega)]
  rw [addDays_in_month Y 2 _ 1 (by have := daysInMonth_feb_ge Y; omega)]
  rw [addDays_in_month Y 2 14 _ (by have := daysInMonth_feb_ge Y; omega)]
  rw [subDays_in_month Y 5 _ 31 (by omega)]
  rw [addDays_in_month Y 9 _ 1 (by simp [daysInMonth]; omega)]
  rw [addDays_in_month Y 11 _ 1 (by simp [daysInMonth]; omega)]
  rw [addDays_in_month Y 11 21 _ (by simp [daysInMonth]; omega)]
  rw [addDays_in_month Y 11 1 _ (by simp [daysInMonth]; omega)]

lemma holidays_y (Y : Nat) : ∀ h ∈ get_company_holidays Y, h.y = Y := by
  intro h hmem
  rw [get_company_holidays_eq] at hmem
  simp only [Finset.mem_insert] at hmem
  rcases hmem with rfl | rfl | rfl | rfl | rfl | rfl | hmem
  · rfl
  · rfl
  · rfl
  · rfl
  · rfl
  · rfl
  · split_ifs at hmem <;>
      simp only [Finset.mem_insert, Finset.mem_singleton] at hmem
    · rcases hmem with rfl | rfl | rfl | rfl | rfl | rfl <;> rfl
    · rcases hmem with rfl | rfl | rfl | rfl | rfl | rfl <;> rfl
    · rcases hmem with rfl | rfl | rfl | rfl | rfl <;> rfl

lemma card_insert_le_succ {s : Finset Date} {a : Date} {n : Nat} (h : s.card ≤ n) :
    (insert a s).card ≤ n + 1 :=
  le_trans (Finset.card_insert_le _ _) (by omega)

lemma holidays_card (Y : Nat) : (get_company_holidays Y).card ≤ 12 := by
  rw [get_company_holidays_eq]
  have hbase :
      ({⟨Y, 1, 1⟩, ⟨Y, 6, 19⟩, ⟨Y, 7, 4⟩, ⟨Y, 12, 24⟩, ⟨Y, 12, 25⟩} :
        Finset Date).card ≤ 5 := by
    apply card_insert_le_succ
    apply card_insert_le_succ
    apply card_insert_le_succ
    apply card_insert_le_succ
    simp
  have hjuly :
      (if Date.weekday ⟨Y, 7, 4⟩ = 5 then
          insert (⟨Y, 7, 3⟩ : Date)
            ({⟨Y, 1, 1⟩, ⟨Y, 6, 19⟩, ⟨Y, 7, 4⟩, ⟨Y, 12, 24⟩, ⟨Y, 12, 25⟩} : Finset Date)
        else if Date.weekday ⟨Y, 7, 4⟩ = 6 then
          insert (⟨Y, 7, 5⟩ : Date)
            ({⟨Y, 1, 1⟩, ⟨Y, 6, 19⟩, ⟨Y, 7, 4⟩, ⟨Y, 12, 24⟩, ⟨Y, 12, 25⟩} : Finset Date)
        else
          ({⟨Y, 1, 1⟩, ⟨Y, 6, 19⟩, ⟨Y, 7, 4⟩, ⟨Y, 12, 24⟩, ⟨Y, 12, 25⟩} :
            Finset Date)).card ≤ 6 := by
    split_ifs
    · exact card_insert_le_succ hbase
    · exact card_insert_le_succ hbase
    · exact le_trans hbase (by omega)
  exact card_insert_le_succ (card_insert_le_succ (card_insert_le_succ
    (card_insert_le_succ (card_insert_le_succ (card_insert_le_succ hjuly)))))

lemma rank_le_dby_succ (x : Date) (h : x.Valid) : x.rank ≤ daysBeforeYear (x.y + 1) := by
  obtain ⟨y, m, d⟩ := x
  simp only [Date.Valid] at h
  obtain ⟨hv1, hv2, hv3, hv4, hv5⟩ := h
  simp only [Date.rank]
  have h2 := daysBeforeMonth_succ y m (by omega)
  have h3 := daysBeforeMonth_mono y (m + 1) 13 (by omega)
  have h6 := daysBeforeMonth_succ y 12 (by omega)
  norm_num at h6
  have h7 : daysInMonth y 12 = 31 := daysInMonth_12 y
  have h4 := daysBeforeMonth_12_add y
  have h5 := daysBeforeYear_succ y (by omega)
  generalize hb : (if isLeap y then 1 else 0) = b at h4 h5
  omega

lemma dby_lt_rank (x : Date) (h : x.Valid) : daysBeforeYear x.y < x.rank := by
  obtain ⟨y, m, d⟩ := x
  simp only [Date.Valid] at h
  simp only [Date.rank]
  omega

lemma exists_good (S : Date) (H : Finset Date) (hv : S.Valid) (hr : 200 ≤ S.rank)
    (hcard : H.card ≤ 24) :
    ∃ g : Date, g.Valid ∧ g.rank ≤ S.rank ∧ S.rank ≤ g.rank + 174 ∧
      g.weekday = 0 ∧ g ∉ H := by
  by_contra hno
  push_neg at hno
  have hm : (S.rank + 6) % 7 < 7 := Nat.mod_lt _ (by omega)
  have key : ∀ t, t < 25 → subDays S ((S.rank + 6) % 7 + 7 * t) ∈ H := by
    intro t ht
    have hsd := subDays_spec ((S.rank + 6) % 7 + 7 * t) S hv (by omega)
    have e := hsd.2
    apply hno _ hsd.1
    · omega
    · omega
    · unfold Date.weekday
      omega
  have hinj : ∀ t1 ∈ Finset.range 25, ∀ t2 ∈ Finset.range 25,
      subDays S ((S.rank + 6) % 7 + 7 * t1) = subDays S ((S.rank + 6) % 7 + 7 * t2) →
        t1 = t2 := by
    intro t1 h1 t2 h2 heq
    rw [Finset.mem_range] at h1 h2
    have e1 := (subDays_spec ((S.rank + 6) % 7 + 7 * t1) S hv (by omega)).2
    have e2 := (subDays_spec ((S.rank + 6) % 7 + 7 * t2) S hv (by omega)).2
    have e3 : (subDays S ((S.rank + 6) % 7 + 7 * t1)).rank =
        (subDays S ((S.rank + 6) % 7 + 7 * t2)).rank := by rw [heq]
    omega
  have himg : (Finset.range 25).image (fun t => subDays S ((S.rank + 6) % 7 + 7 * t)) ⊆ H := by
    intro g hg
    rw [Finset.mem_image] at hg
    obtain ⟨t, ht, rfl⟩ := hg
    exact key t (Finset.mem_range.mp ht)
  have hc := Finset.card_le_card himg
  rw [Finset.card_image_of_injOn hinj, Finset.card_range] at hc
  omega

lemma valid_y_pos (x : Date) (h : x.Valid) : 1 ≤ x.y := by
  obtain ⟨y, m, d⟩ := x
  simp only [Date.Valid] at h
  exact h.1

lemma rank_ge_of_y2 (x : Date) (hv : x.Valid) (hy : 2 ≤ x.y) : 366 ≤ x.rank := by
  obtain ⟨y, m, d⟩ := x
  simp only [Date.Valid] at hv
  obtain ⟨h1, h2, h3, h4, h5⟩ := hv
  have hy2 : 2 ≤ y := hy
  simp only [Date.rank]
  unfold daysBeforeYear leapsBefore
  omega

/-- Main invariant of the business-day search: starting from a valid date
`S` with a known good day `g` at or below it within the fuel, the loop
returns a good day `r`, no later than `S` and no earlier than `g`, and
every valid day strictly between `r` and `S` is a holiday or a weekend. -/
lemma sobdGo_spec (H : Finset Date) :
    ∀ (fuel : Nat) (S g : Date), S.Valid → g.Valid → g.rank ≤ S.rank →
      g.weekday ≠ 5 → g.weekday ≠ 6 → g ∉ H → S.rank - g.rank < fuel →
      ∃ r, sobdGo H fuel S = some r ∧ r.Valid ∧ g.rank ≤ r.rank ∧ r.rank ≤ S.rank
        ∧ r ∉ H ∧ r.weekday ≠ 5 ∧ r.weekday ≠ 6
        ∧ ∀ e : Date, e.Valid → r.rank < e.rank → e.rank ≤ S.rank →
            (e ∈ H ∨ e.weekday = 5 ∨ e.weekday = 6) := by
  intro fuel
  induction fuel with
  | zero =>
      intro S g _ _ _ _ _ _ hf
      exact absurd hf (Nat.not_lt_zero _)
  | succ fuel ih =>
      intro S g hS hg hgs hg5 hg6 hgH hf
      by_cases hSH : S ∈ H
      · have hne : g ≠ S := by rintro rfl; exact hgH hSH
        have hrne : g.rank ≠ S.rank := fun h => hne (rank_injOn g S hg hS h)
        have hgp : 1 ≤ g.rank := rank_pos g hg
        have h2 : 2 ≤ S.rank := by omega
        have hpv := valid_pred S hS h2
        have hpr := rank_pred S hS h2
        obtain ⟨r, hr_eq, hrv, hgr, hrS, hrH, hr5, hr6, hnear⟩ :=
          ih S.pred g hpv hg (by omega) hg5 hg6 hgH (by omega)
        refine ⟨r, ?_, hrv, hgr, by omega, hrH, hr5, hr6, ?_⟩
        · simp only [sobdGo, if_pos hSH]
          exact hr_eq
        · intro e he hre heS
          by_cases heq : e.rank = S.rank
          · left
            rw [rank_injOn e S he hS heq]
            exact hSH
          · exact hnear e he hre (by omega)
      · by_cases hS5 : S.weekday = 5
        · have hne : g ≠ S := by rintro rfl; exact hg5 hS5
          have hrne : g.rank ≠ S.rank := fun h => hne (rank_injOn g S hg hS h)
          have hgp : 1 ≤ g.rank := rank_pos g hg
          have h2 : 2 ≤ S.rank := by omega
          have hpv := valid_pred S hS h2
          have hpr := rank_pred S hS h2
          obtain ⟨r, hr_eq, hrv, hgr, hrS, hrH, hr5, hr6, hnear⟩ :=
            ih S.pred g hpv hg (by omega) hg5 hg6 hgH (by omega)
          refine ⟨r, ?_, hrv, hgr, by omega, hrH, hr5, hr6, ?_⟩
          · simp only [sobdGo, if_neg hSH, if_pos hS5]
            exact hr_eq
          · intro e he hre heS
            by_cases heq : e.rank = S.rank
            · right; left
              rw [rank_injOn e S he hS heq]
              exact hS5
            · exact hnear e he hre (by omega)
        · by_cases hS6 : S.weekday = 6
          · have hne : g ≠ S := by rintro rfl; exact hg6 hS6
            have hrne : g.rank ≠ S.rank := fun h => hne (rank_injOn g S hg hS h)
            have hgp : 1 ≤ g.rank := rank_pos g hg
            have h2 : 2 ≤ S.rank := by omega
            have hpv := valid_pred S hS h2
            have hpr := rank_pred S hS h2
            have hw5 : S.pred.weekday = 5 := by
              unfold Date.weekday at hS6 ⊢
              omega
            have hgne2 : g.rank ≠ S.pred.rank := by
              intro h
              exact hg5 (by rw [rank_injOn g S.pred hg hpv h]; exact hw5)
            have h3 : 2 ≤ S.pred.rank := by omega
            have hppv := valid_pred S.pred hpv h3
            have hppr := rank_pred S.pred hpv h3
            obtain ⟨r, hr_eq, hrv, hgr, hrS, hrH, hr5, hr6, hnear⟩ :=
              ih S.pred.pred g hppv hg (by omega) hg5 hg6 hgH (by omega)
            refine ⟨r, ?_, hrv, hgr, by omega, hrH, hr5, hr6, ?_⟩
            · simp only [sobdGo, if_neg hSH, if_neg hS5, if_pos hS6]
              exact hr_eq
            · intro e he hre heS
              by_cases he1 : e.rank = S.rank
              · right; right
                rw [rank_injOn e S he hS he1]
                exact hS6
              · by_cases he2 : e.rank = S.pred.rank
                · right; left
                  rw [rank_injOn e S.pred he hpv he2]
                  exact hw5
                · exact hnear e he hre (by omega)
          · refine ⟨S, ?_, hS, hgs, le_refl _, hSH, hS5, hS6, ?_⟩
            · simp only [sobdGo, if_neg hSH, if_neg hS5, if_neg hS6]
            · intro e _ hre heS
              omega

/-! ### C5 and C10 — the business-day calculator -/

/-- C5: for every valid input date (of year at least 2, so that the search
never underflows the calendar), `subtract_one_business_day` returns a
strictly earlier valid date that is neither a Saturday (weekday 5) nor a
Sunday (weekday 6) nor a member of the company holiday set computed for its
own year or the prior year; it is the nearest such earlier date (every
valid date strictly between result and input is a Saturday, a Sunday, or a
holiday of its own or prior year); and equal inputs give equal outputs. -/
theorem C5_subtract_one_business_day :
    ∀ x : Date, x.Valid → 2 ≤ x.y →
      (subtract_one_business_day x).Valid
      ∧ (subtract_one_business_day x).rank < x.rank
      ∧ (subtract_one_business_day x).weekday ≠ 5
      ∧ (subtract_one_business_day x).weekday ≠ 6
      ∧ (subtract_one_business_day x) ∉
          get_company_holidays (subtract_one_business_day x).y ∪
            get_company_holidays ((subtract_one_business_day x).y - 1)
      ∧ (∀ e : Date, e.Valid → (subtract_one_business_day x).rank < e.rank →
          e.rank < x.rank →
          (e.weekday = 5 ∨ e.weekday = 6 ∨
            e ∈ get_company_holidays e.y ∪ get_company_holidays (e.y - 1)))
      ∧ (∀ x' : Date, x = x' →
          subtract_one_business_day x = subtract_one_business_day x') := by
  intro x hv hy2
  have hrx : 366 ≤ x.rank := rank_ge_of_y2 x hv hy2
  have h2 : 2 ≤ x.rank := by omega
  have hS := valid_pred x hv h2
  have hSr := rank_pred x hv h2
  have hcard :
      (get_company_holidays x.pred.y ∪ get_company_holidays (x.pred.y - 1)).card ≤ 24 := by
    refine le_trans (Finset.card_union_le _ _) ?_
    have := holidays_card x.pred.y
    have := holidays_card (x.pred.y - 1)
    omega
  obtain ⟨g, hgv, hgS, hwin, hg0, hgH⟩ :=
    exists_good x.pred _ hS (by omega) hcard
  obtain ⟨r, hr_eq, hrv, hgr, hrS, hrH, hr5, hr6, hnear⟩ :=
    sobdGo_spec _ 400 x.pred g hS hgv hgS (by rw [hg0]; omega) (by rw [hg0]; omega)
      hgH (by omega)
  have hres : subtract_one_business_day x = r := by
    simp only [subtract_one_business_day]
    rw [hr_eq]
    rfl
  rw [hres]
  have hy_le : r.y ≤ x.pred.y := by
    by_contra hcon
    push_neg at hcon
    have d1 := dby_lt_rank r hrv
    have d2 := rank_le_dby_succ x.pred hS
    have d3 := daysBeforeYear_mono (x.pred.y + 1) r.y (by omega)
    omega
  have hy_ge : x.pred.y ≤ r.y + 1 := by
    by_contra hcon
    push_neg at hcon
    have hry := valid_y_pos r hrv
    have d1 := rank_le_dby_succ r hrv
    have d2 := daysBeforeYear_mono (r.y + 1) (x.pred.y - 1) (by omega)
    have d3 := daysBeforeYear_succ (x.pred.y - 1) (by omega)
    rw [show x.pred.y - 1 + 1 = x.pred.y by omega] at d3
    have d4 := dby_lt_rank x.pred hS
    generalize (if isLeap (x.pred.y - 1) then 1 else 0) = b at d3
    omega
  have hy12 : r.y = x.pred.y ∨ r.y = x.pred.y - 1 := by
    have := valid_y_pos r hrv
    omega
  refine ⟨hrv, by omega, hr5, hr6, ?_, ?_, fun x' h => by rw [← h, hres]⟩
  · intro hmem
    rcases Finset.mem_union.mp hmem with hm | hm
    · rcases hy12 with h | h <;> rw [h] at hm
      · exact hrH (Finset.mem_union_left _ hm)
      · exact hrH (Finset.mem_union_right _ hm)
    · have h1 := holidays_y (r.y - 1) r hm
      have h2 := valid_y_pos r hrv
      omega
  · intro e hev hre hex
    have heS : e.rank ≤ x.pred.rank := by omega
    rcases hnear e hev hre heS with hH' | h5 | h6
    · right; right
      rcases Finset.mem_union.mp hH' with hm | hm
      · have hey := holidays_y _ e hm
        exact Finset.mem_union_left _ (by rw [hey]; exact hm)
      · have hey := holidays_y _ e hm
        exact Finset.mem_union_left _ (by rw [hey]; exact hm)
    · left; exact h5
    · right; left; exact h6

/-- Witness for C5 at Monday, October 13, 2025. -/
theorem C5_subtract_one_business_day_witness :
    (subtract_one_business_day ⟨2025, 10, 13⟩).Valid
    ∧ (subtract_one_business_day ⟨2025, 10, 13⟩).rank < Date.rank ⟨2025, 10, 13⟩
    ∧ (subtract_one_business_day ⟨2025, 10, 13⟩).weekday ≠ 5
    ∧ (subtract_one_business_day ⟨2025, 10, 13⟩).weekday ≠ 6
    ∧ (subtract_one_business_day ⟨2025, 10, 13⟩) ∉
        get_company_holidays (subtract_one_business_day ⟨2025, 10, 13⟩).y ∪
          get_company_holidays ((subtract_one_business_day ⟨2025, 10, 13⟩).y - 1) :=
  have h := C5_subtract_one_business_day ⟨2025, 10, 13⟩ (by decide) (by decide)
  ⟨h.1, h.2.1, h.2.2.1, h.2.2.2.1, h.2.2.2.2.1⟩

/-- C10: the `while True` search of `subtract_one_business_day` terminates
for every valid input date (year at least 2): within 400 iterations of fuel
the loop returns; the combined holiday set of the two relevant years is
finite with at most 24 members; and each backward step strictly decreases
the candidate date. -/
theorem C10_business_day_termination :
    ∀ x : Date, x.Valid → 2 ≤ x.y →
      (∃ r, sobdGo (get_company_holidays x.pred.y ∪
          get_company_holidays (x.pred.y - 1)) 400 x.pred = some r)
      ∧ (get_company_holidays x.pred.y ∪
          get_company_holidays (x.pred.y - 1)).card ≤ 24
      ∧ (∀ d : Date, d.Valid → 2 ≤ d.rank → d.pred.rank < d.rank) := by
  intro x hv hy2
  have hrx : 366 ≤ x.rank := rank_ge_of_y2 x hv hy2
  have h2 : 2 ≤ x.rank := by omega
  have hS := valid_pred x hv h2
  have hSr := rank_pred x hv h2
  have hcard :
      (get_company_holidays x.pred.y ∪ get_company_holidays (x.pred.y - 1)).card ≤ 24 := by
    refine le_trans (Finset.card_union_le _ _) ?_
    have := holidays_card x.pred.y
    have := holidays_card (x.pred.y - 1)
    omega
  obtain ⟨g, hgv, hgS, hwin, hg0, hgH⟩ :=
    exists_good x.pred _ hS (by omega) hcard
  obtain ⟨r, hr_eq, _⟩ :=
    sobdGo_spec _ 400 x.pred g hS hgv hgS (by rw [hg0]; omega) (by rw [hg0]; omega)
      hgH (by omega)
  refine ⟨⟨r, hr_eq⟩, hcard, ?_⟩
  intro d hd hr2
  have := rank_pred d hd hr2
  omega

/-- Witness for C10 at Monday, October 13, 2025. -/
theorem C10_business_day_termination_witness :
    (∃ r, sobdGo (get_company_holidays (Date.pred ⟨2025, 10, 13⟩).y ∪
        get_company_holidays ((Date.pred ⟨2025, 10, 13⟩).y - 1)) 400
        (Date.pred ⟨2025, 10, 13⟩) = some r)
    ∧ (get_company_holidays (Date.pred ⟨2025, 10, 13⟩).y ∪
        get_company_holidays ((Date.pred ⟨2025, 10, 13⟩).y - 1)).card ≤ 24 :=
  have h := C10_business_day_termination ⟨2025, 10, 13⟩ (by decide) (by decide)
  ⟨h.1, h.2.1⟩

end AMS
